import Mathlib

/-!
Verification of the swagger-to-raml-object resource-listing converter
(src/lib/resource-listing.js).

The JavaScript code is shallowly embedded as follows.

JavaScript values that flow into the output object are modelled by the
inductive type `Js`: `Js.undef` is the JavaScript value `undefined`,
`Js.str` a string, `Js.arr` an array and `Js.obj` an object, whose
fields are an ordered association list (JavaScript objects preserve the
order in which keys were inserted).  Property assignment `o[k] = v` is
modelled by `setKey`, which keeps the position of an existing key and
appends a new one, exactly as JavaScript does; property read is
`lookupKey` (reading an absent key yields `undefined`, i.e. `none`).

The input document is modelled by structured records whose optional
fields are `Option`s; the `info` object is kept as an association list
of string fields because the source reads it by dynamic key lookup.
JavaScript string truthiness (the empty string is falsy) is `strTruthy`.

Reading a property of `undefined` throws a `TypeError` in JavaScript;
conversions that can throw therefore return `Except Unit`, and
`Except.error ()` marks exactly the places where the source would
throw (`authorization.grantTypes.implicit` when `grantTypes` is absent,
and the unguarded `tokenRequestEndpoint` / `tokenEndpoint` reads in the
authorization-code branch).
-/

namespace SwaggerToRaml

/-- JavaScript values appearing in the converter, with `undef` for the
JavaScript value `undefined` and objects as ordered association lists. -/
inductive Js : Type where
  | undef : Js
  | str : String → Js
  | arr : List Js → Js
  | obj : List (String × Js) → Js

/-- Inject an optional string: an absent value is `undefined`. -/
def jsOfOpt : Option String → Js
  | some s => Js.str s
  | none => Js.undef

/-- The keys of a JavaScript object value, in insertion order. -/
def jsKeys : Js → List String
  | Js.obj fields => fields.map Prod.fst
  | _ => []

/-- The keys of an association list, in order; `Object.keys`. -/
def keysOf {α : Type} (l : List (String × α)) : List String :=
  l.map Prod.fst

/-- First-match lookup in an association list; models a JavaScript
property read, where an absent key reads as `undefined` (`none`). -/
def lookupKey {α : Type} : List (String × α) → String → Option α
  | [], _ => none
  | (k, v) :: rest, key => if k = key then some v else lookupKey rest key

/-- JavaScript property assignment on an ordered association list: an
existing key keeps its position and gets the new value, a new key is
appended at the end. -/
def setKey {α : Type} : List (String × α) → String → α → List (String × α)
  | [], key, v => [(key, v)]
  | (k, w) :: rest, key, v =>
    if k = key then (k, v) :: rest else (k, w) :: setKey rest key v

/-- JavaScript truthiness of an optional string: absent and the empty
string are falsy, every other string is truthy. -/
def strTruthy : Option String → Bool
  | some s => s ≠ ""
  | none => false

/-- `Array.prototype.join` with a separator, as used for the
description lines. -/
def joinSep (sep : String) : List String → String
  | [] => ""
  | [x] => x
  | x :: y :: rest => x ++ sep ++ joinSep sep (y :: rest)

/-- Map of swagger documentation keys to title-cased strings, in the
declaration order of the source table. -/
def DOCUMENTATION_NAME_MAP : List (String × String) :=
  [("description", "Description"),
   ("termsOfServiceUrl", "Terms of Service URL"),
   ("contact", "Contact"),
   ("license", "License"),
   ("licenseUrl", "License URL")]

/-- Map of Swagger OAuth 2.0 grant types to the RAML equivalents. -/
def GRANT_TYPE_MAP : List (String × String) :=
  [("implicit", "token"),
   ("authorization_code", "code")]

/-- Map of ways to pass API keys in Swagger to RAML properties. -/
def API_KEY_PASS_AS_MAP : List (String × String) :=
  [("header", "headers"),
   ("query", "queryParameters")]

/-- An endpoint object of a grant-type configuration; the source reads
at most `url`, `tokenName`, `clientIdName` and `clientSecretName`. -/
structure Endpoint : Type where
  url : Option String
  tokenName : Option String
  clientIdName : Option String
  clientSecretName : Option String

/-- A grant-type configuration object; the source reads
`loginEndpoint` and `tokenName` on the implicit entry, `tokenEndpoint`
and `tokenRequestEndpoint` on the authorization-code entry. -/
structure GrantTypeConfig : Type where
  loginEndpoint : Option Endpoint
  tokenName : Option String
  tokenEndpoint : Option Endpoint
  tokenRequestEndpoint : Option Endpoint

/-- One element of the `scopes` array of an OAuth2 authorization. -/
structure Scope : Type where
  scope : String
  description : Option String

/-- A swagger authorization object.  The dispatch key `type` and every
field any scheme converter reads are optional, since the source never
validates the shape; `grantTypes` is an ordered association list, the
model of a JavaScript object iterated with `Object.keys`. -/
structure SourceAuthorization : Type where
  type : Option String
  scopes : Option (List Scope)
  grantTypes : Option (List (String × GrantTypeConfig))
  passAs : Option String
  keyname : Option String

/-- One element of the `apis` array of a resource listing. -/
structure SourceApi : Type where
  path : Option String
  description : Option String

/-- A swagger resource-listing document.  `info` is an ordered
association list of string fields, read by key; `authorizations` is an
ordered association list of named authorization objects. -/
structure SourceDocument : Type where
  info : Option (List (String × String))
  apis : Option (List SourceApi)
  authorizations : Option (List (String × SourceAuthorization))
  apiVersion : Option String

/-- The `documentation` array computed inside `convertInfo`: the keys
of `DOCUMENTATION_NAME_MAP`, filtered to those truthy on `info`, each
mapped to a `title`/`content` pair. -/
def infoDocumentation (info : List (String × String)) : List Js :=
  (DOCUMENTATION_NAME_MAP.filter (fun kv => strTruthy (lookupKey info kv.1))).map
    (fun kv => Js.obj [("title", Js.str kv.2), ("content", jsOfOpt (lookupKey info kv.1))])

/-- `convertInfo(info, ramlObject)`: returns the object unchanged when
`info` is absent; otherwise aliases `title` (even when absent on
`info`) and sets `documentation` only when at least one entry
qualified. -/
def convertInfo (info : Option (List (String × String)))
    (ramlObject : List (String × Js)) : List (String × Js) :=
  match info with
  | none => ramlObject
  | some info =>
    let documentation := infoDocumentation info
    let ramlObject := setKey ramlObject "title" (jsOfOpt (lookupKey info "title"))
    if documentation.isEmpty then ramlObject
    else setKey ramlObject "documentation" (Js.arr documentation)

/-- `convertApis(apis, ramlObject)`: position-preserving map of `apis`
to `relativeUri`/`description` records; no `resources` key when `apis`
is absent. -/
def convertApis (apis : Option (List SourceApi))
    (ramlObject : List (String × Js)) : List (String × Js) :=
  match apis with
  | none => ramlObject
  | some apis =>
    setKey ramlObject "resources" (Js.arr (apis.map (fun api =>
      Js.obj [("relativeUri", jsOfOpt api.path), ("description", jsOfOpt api.description)])))

/-- A JavaScript computed property name: an `undefined` key stringifies
to the literal string `undefined`. -/
def jsPropName : Option String → String
  | some s => s
  | none => "undefined"

/-- `convertApiKey(authorization)`: looks up the transport location via
`API_KEY_PASS_AS_MAP`; on success nests the fixed parameter record
under `describedBy[location][keyname]`, otherwise `describedBy` stays
empty. -/
def convertApiKey (authorization : SourceAuthorization) : Js :=
  let describedBy :=
    match authorization.passAs with
    | some p => lookupKey API_KEY_PASS_AS_MAP p
    | none => none
  let describedByFields : List (String × Js) :=
    match describedBy with
    | some location =>
      [(location, Js.obj [(jsPropName authorization.keyname,
        Js.obj [("type", Js.str "string"),
                ("description", Js.str "Used to send a valid API key for authentication.")])])]
    | none => []
  Js.obj [("type", Js.str "x-api-key"), ("describedBy", Js.obj describedByFields)]

/-- `convertBasicAuth(authorization)`: constant, the input is not
inspected. -/
def convertBasicAuth (_authorization : SourceAuthorization) : Js :=
  Js.obj [("type", Js.str "Basic Authentication")]

/-- The description line for one scope carrying a description. -/
def scopeLine (s : Scope) : String :=
  "* " ++ s.scope ++ ": " ++ s.description.getD ""

/-- The scopes part of `convertOAuth2`: the fields to append to
`settings` and the description lines contributed, both empty when
`scopes` is absent or empty. -/
def scopesStep (scopes : Option (List Scope)) : List (String × Js) × List String :=
  match scopes with
  | none => ([], [])
  | some scopes =>
    if scopes.isEmpty then ([], [])
    else
      let scopeDescriptions := (scopes.filter (fun s => strTruthy s.description)).map scopeLine
      ([("scopes", Js.arr (scopes.map (fun s => Js.str s.scope)))],
       if scopeDescriptions.isEmpty then []
       else ["Available scopes: ", joinSep "\n" scopeDescriptions])

/-- The implicit-grant part of `convertOAuth2`, acting on the
`settings` fields and the description lines. -/
def implicitStep (implicit : Option GrantTypeConfig)
    (st : List (String × Js) × List String) : List (String × Js) × List String :=
  match implicit with
  | none => st
  | some imp =>
    let settings :=
      match imp.loginEndpoint with
      | some le =>
        if strTruthy le.url then setKey st.1 "authorizationUri" (jsOfOpt le.url)
        else st.1
      | none => st.1
    let description :=
      match imp.tokenName with
      | some t =>
        if t ≠ "" ∧ t ≠ "access_token" then
          st.2 ++ ["The token grant uses \"" ++ t ++ "\" as the token name."]
        else st.2
      | none => st.2
    (settings, description)

/-- The authorization-code part of `convertOAuth2`.  The source reads
`tokenRequestEndpoint.clientIdName` and `tokenEndpoint.tokenName`
without a guard, so an absent `tokenRequestEndpoint` or `tokenEndpoint`
throws. -/
def authCodeStep (authCode : Option GrantTypeConfig)
    (st : List (String × Js) × List String) :
    Except Unit (List (String × Js) × List String) :=
  match authCode with
  | none => Except.ok st
  | some ac =>
    match ac.tokenRequestEndpoint with
    | none => Except.error ()
    | some tre =>
      match ac.tokenEndpoint with
      | none => Except.error ()
      | some te =>
        let settings := setKey st.1 "accessTokenUri" (jsOfOpt te.url)
        let settings := setKey settings "authorizationUri" (jsOfOpt tre.url)
        let description :=
          match tre.clientIdName with
          | some s =>
            if s ≠ "" ∧ s ≠ "client_id" then
              st.2 ++ ["The code grant uses \"" ++ s ++
                "\" as the parameter for passing the client id."]
            else st.2
          | none => st.2
        let description :=
          match tre.clientSecretName with
          | some s =>
            if s ≠ "" ∧ s ≠ "client_secret" then
              description ++ ["The code grant uses \"" ++ s ++
                "\" as the parameter for passing the client secret."]
            else description
          | none => description
        let description :=
          match te.tokenName with
          | some s =>
            if s ≠ "" ∧ s ≠ "access_code" then
              description ++ ["The code grant uses \"" ++ s ++
                "\" as the parameter for passing the authorization token."]
            else description
          | none => description
        Except.ok (settings, description)

/-- `convertOAuth2(authorization)`: reading
`authorization.grantTypes.implicit` throws when `grantTypes` is
absent; otherwise maps scopes, pushes one translated entry per
grant-type key, runs the implicit and authorization-code branches, and
joins the accumulated description lines with blank lines, taking the
`description` key only when a line was produced. -/
def convertOAuth2 (authorization : SourceAuthorization) : Except Unit Js :=
  match authorization.grantTypes with
  | none => Except.error ()
  | some grantTypes =>
    let implicit := lookupKey grantTypes "implicit"
    let authCode := lookupKey grantTypes "authorization_code"
    let st0 := scopesStep authorization.scopes
    let settings :=
      ("authorizationGrants",
        Js.arr (grantTypes.map (fun kv => jsOfOpt (lookupKey GRANT_TYPE_MAP kv.1)))) :: st0.1
    let st1 := implicitStep implicit (settings, st0.2)
    match authCodeStep authCode st1 with
    | Except.error e => Except.error e
    | Except.ok st2 =>
      let ramlAuth := [("type", Js.str "OAuth 2.0"), ("settings", Js.obj st2.1)]
      Except.ok (Js.obj
        (if st2.2.isEmpty then ramlAuth
         else ramlAuth ++ [("description", Js.str (joinSep "\n\n" st2.2))]))

/-- `convertAuthorization(authorization)`: dispatch on the `type`
string; a value matching none of the three known types falls off the
if-chain and returns `undefined`. -/
def convertAuthorization (authorization : SourceAuthorization) : Except Unit Js :=
  if authorization.type = some "oauth2" then convertOAuth2 authorization
  else if authorization.type = some "apiKey" then Except.ok (convertApiKey authorization)
  else if authorization.type = some "basicAuth" then Except.ok (convertBasicAuth authorization)
  else Except.ok Js.undef

/-- The body of `Object.keys(authorizations).map(...)`: each named
authorization becomes a fresh single-entry object; a thrown conversion
aborts the whole map. -/
def convertSchemes : List (String × SourceAuthorization) → Except Unit (List Js)
  | [] => Except.ok []
  | (key, authorization) :: rest =>
    match convertAuthorization authorization with
    | Except.error e => Except.error e
    | Except.ok scheme =>
      match convertSchemes rest with
      | Except.error e => Except.error e
      | Except.ok schemes => Except.ok (Js.obj [(key, scheme)] :: schemes)

/-- `convertAuthorizations(authorizations, ramlObject)`: returns the
object unchanged when `authorizations` is absent, otherwise sets
`securitySchemes` to the order-preserving list of converted named
entries. -/
def convertAuthorizations (authorizations : Option (List (String × SourceAuthorization)))
    (ramlObject : List (String × Js)) : Except Unit (List (String × Js)) :=
  match authorizations with
  | none => Except.ok ramlObject
  | some auths =>
    match convertSchemes auths with
    | Except.error e => Except.error e
    | Except.ok schemes => Except.ok (setKey ramlObject "securitySchemes" (Js.arr schemes))

/-- The trailing `if (resource.apiVersion) ramlObject.version = ...`
of `converter`: copies `apiVersion` to `version` only when truthy. -/
def versionStep (apiVersion : Option String)
    (ramlObject : List (String × Js)) : List (String × Js) :=
  match apiVersion with
  | some v => if v ≠ "" then setKey ramlObject "version" (Js.str v) else ramlObject
  | none => ramlObject

/-- `converter(resource)`: the top-level conversion, building the raml
object by the info, apis and authorizations steps and then copying a
truthy `apiVersion` to `version`. -/
def converter (resource : SourceDocument) : Except Unit Js :=
  let ramlObject : List (String × Js) := []
  let ramlObject := convertInfo resource.info ramlObject
  let ramlObject := convertApis resource.apis ramlObject
  match convertAuthorizations resource.authorizations ramlObject with
  | Except.error e => Except.error e
  | Except.ok ramlObject => Except.ok (Js.obj (versionStep resource.apiVersion ramlObject))

/-- Well-formedness of one authorization as far as the converter can
throw: an oauth2 entry must carry `grantTypes`, and when its
`grantTypes` contains an `authorization_code` entry, that entry must
carry `tokenRequestEndpoint` and `tokenEndpoint`. -/
def authOK (authorization : SourceAuthorization) : Bool :=
  if authorization.type = some "oauth2" then
    match authorization.grantTypes with
    | none => false
    | some g =>
      match lookupKey g "authorization_code" with
      | none => true
      | some ac => ac.tokenRequestEndpoint.isSome && ac.tokenEndpoint.isSome
  else true

/-! ### Association-list lemmas -/

theorem lookupKey_setKey_self {α : Type} (l : List (String × α)) (k : String) (v : α) :
    lookupKey (setKey l k v) k = some v := by
  induction l with
  | nil => simp [setKey, lookupKey]
  | cons hd tl ih =>
    obtain ⟨k1, v1⟩ := hd
    by_cases hk : k1 = k
    · simp [setKey, hk, lookupKey]
    · simp [setKey, hk, lookupKey, ih]

theorem lookupKey_setKey_ne {α : Type} (l : List (String × α)) (k m : String) (v : α)
    (h : m ≠ k) : lookupKey (setKey l k v) m = lookupKey l m := by
  induction l with
  | nil => simp [setKey, lookupKey, Ne.symm h]
  | cons hd tl ih =>
    obtain ⟨k1, v1⟩ := hd
    by_cases hk : k1 = k
    · subst hk
      simp [setKey, lookupKey, Ne.symm h]
    · simp [setKey, hk, lookupKey, ih]

theorem mem_keys_setKey {α : Type} (l : List (String × α)) (k m : String) (v : α) :
    m ∈ keysOf (setKey l k v) ↔ m ∈ keysOf l ∨ m = k := by
  induction l with
  | nil => simp [setKey, keysOf]
  | cons hd tl ih =>
    obtain ⟨k1, v1⟩ := hd
    by_cases hk : k1 = k
    · subst hk
      rw [setKey, if_pos rfl]
      simp only [keysOf, List.map_cons, List.mem_cons]
      tauto
    · rw [setKey, if_neg hk]
      simp only [keysOf, List.map_cons, List.mem_cons] at ih ⊢
      rw [ih]
      tauto

theorem joinSep_pair (sep a b : String) : joinSep sep [a, b] = a ++ sep ++ b := rfl

/-! ### Pipeline-step lemmas -/

theorem convertInfo_some (info : List (String × String)) :
    convertInfo (some info) [] =
      if (infoDocumentation info).isEmpty then
        [("title", jsOfOpt (lookupKey info "title"))]
      else
        [("title", jsOfOpt (lookupKey info "title")),
         ("documentation", Js.arr (infoDocumentation info))] := by
  by_cases h : (infoDocumentation info).isEmpty <;>
    simp [convertInfo, h, setKey]

theorem mem_keys_convertInfo (info : Option (List (String × String)))
    (l : List (String × Js)) (m : String)
    (h1 : m ≠ "title") (h2 : m ≠ "documentation") :
    m ∈ keysOf (convertInfo info l) ↔ m ∈ keysOf l := by
  cases info with
  | none => rfl
  | some info =>
    simp only [convertInfo]
    split
    · rw [mem_keys_setKey]
      simp [h1]
    · rw [mem_keys_setKey, mem_keys_setKey]
      simp [h1, h2]

theorem mem_keys_convertApis (apis : Option (List SourceApi))
    (l : List (String × Js)) (m : String) (h : m ≠ "resources") :
    m ∈ keysOf (convertApis apis l) ↔ m ∈ keysOf l := by
  cases apis with
  | none => rfl
  | some apis =>
    simp only [convertApis]
    rw [mem_keys_setKey]
    simp [h]

theorem lookupKey_convertApis (apis : Option (List SourceApi))
    (l : List (String × Js)) (m : String) (h : m ≠ "resources") :
    lookupKey (convertApis apis l) m = lookupKey l m := by
  cases apis with
  | none => rfl
  | some apis => simp [convertApis, lookupKey_setKey_ne _ _ _ _ h]

theorem convertAuthorizations_ok_inv
    (authorizations : Option (List (String × SourceAuthorization)))
    (l l2 : List (String × Js))
    (h : convertAuthorizations authorizations l = Except.ok l2) :
    l2 = l ∨ ∃ schemes, l2 = setKey l "securitySchemes" (Js.arr schemes) := by
  cases authorizations with
  | none =>
    left
    simpa [convertAuthorizations] using h.symm
  | some auths =>
    right
    simp only [convertAuthorizations] at h
    cases hs : convertSchemes auths with
    | error e => rw [hs] at h; cases h
    | ok schemes =>
      rw [hs] at h
      exact ⟨schemes, by simpa using h.symm⟩

theorem mem_keys_convertAuthorizations
    (authorizations : Option (List (String × SourceAuthorization)))
    (l l2 : List (String × Js)) (m : String)
    (h : convertAuthorizations authorizations l = Except.ok l2)
    (hm : m ≠ "securitySchemes") :
    m ∈ keysOf l2 ↔ m ∈ keysOf l := by
  rcases convertAuthorizations_ok_inv _ _ _ h with rfl | ⟨schemes, rfl⟩
  · rfl
  · rw [mem_keys_setKey]
    simp [hm]

theorem lookupKey_convertAuthorizations
    (authorizations : Option (List (String × SourceAuthorization)))
    (l l2 : List (String × Js)) (m : String)
    (h : convertAuthorizations authorizations l = Except.ok l2)
    (hm : m ≠ "securitySchemes") :
    lookupKey l2 m = lookupKey l m := by
  rcases convertAuthorizations_ok_inv _ _ _ h with rfl | ⟨schemes, rfl⟩
  · rfl
  · exact lookupKey_setKey_ne _ _ _ _ hm

theorem mem_keys_versionStep (apiVersion : Option String)
    (l : List (String × Js)) (m : String) (h : m ≠ "version") :
    m ∈ keysOf (versionStep apiVersion l) ↔ m ∈ keysOf l := by
  cases apiVersion with
  | none => rfl
  | some v =>
    simp only [versionStep]
    split
    · rw [mem_keys_setKey]
      simp [h]
    · rfl

theorem lookupKey_versionStep (apiVersion : Option String)
    (l : List (String × Js)) (m : String) (h : m ≠ "version") :
    lookupKey (versionStep apiVersion l) m = lookupKey l m := by
  cases apiVersion with
  | none => rfl
  | some v =>
    simp only [versionStep]
    split
    · exact lookupKey_setKey_ne _ _ _ _ h
    · rfl

theorem mem_keys_versionStep_version (apiVersion : Option String)
    (l : List (String × Js)) (hl : "version" ∉ keysOf l) :
    ("version" ∈ keysOf (versionStep apiVersion l)) ↔
      (∃ v, apiVersion = some v ∧ v ≠ "") := by
  cases apiVersion with
  | none => simp [versionStep, hl]
  | some v =>
    simp only [versionStep]
    split
    · next hvv =>
      rw [mem_keys_setKey]
      simp [hl, hvv]
    · next hvv =>
      rw [not_not] at hvv
      subst hvv
      simp [hl]

theorem convertAuthorizations_some_ok_inv
    (auths : List (String × SourceAuthorization)) (l l2 : List (String × Js))
    (h : convertAuthorizations (some auths) l = Except.ok l2) :
    ∃ schemes, convertSchemes auths = Except.ok schemes ∧
      l2 = setKey l "securitySchemes" (Js.arr schemes) := by
  simp only [convertAuthorizations] at h
  cases hs : convertSchemes auths with
  | error e => rw [hs] at h; cases h
  | ok schemes =>
    rw [hs] at h
    injection h with h
    exact ⟨schemes, rfl, h.symm⟩

theorem mem_keys_versionStep_sub (apiVersion : Option String)
    (l : List (String × Js)) (m : String) :
    m ∈ keysOf (versionStep apiVersion l) → m ∈ keysOf l ∨ m = "version" := by
  cases apiVersion with
  | none => exact fun h => Or.inl h
  | some v =>
    simp only [versionStep]
    split
    · exact fun h => (mem_keys_setKey _ _ _ _).mp h
    · exact fun h => Or.inl h

theorem mem_keys_convertApis_sub (apis : Option (List SourceApi))
    (l : List (String × Js)) (m : String) :
    m ∈ keysOf (convertApis apis l) → m ∈ keysOf l ∨ m = "resources" := by
  cases apis with
  | none => exact fun h => Or.inl h
  | some apis =>
    simp only [convertApis]
    exact fun h => (mem_keys_setKey _ _ _ _).mp h

theorem mem_keys_convertAuthorizations_sub
    (authorizations : Option (List (String × SourceAuthorization)))
    (l l2 : List (String × Js)) (m : String)
    (h : convertAuthorizations authorizations l = Except.ok l2) :
    m ∈ keysOf l2 → m ∈ keysOf l ∨ m = "securitySchemes" := by
  rcases convertAuthorizations_ok_inv _ _ _ h with rfl | ⟨schemes, rfl⟩
  · exact fun hm => Or.inl hm
  · exact fun hm => (mem_keys_setKey _ _ _ _).mp hm

theorem mem_keys_convertInfo_nil_sub (info : Option (List (String × String)))
    (m : String) :
    m ∈ keysOf (convertInfo info []) → m = "title" ∨ m = "documentation" := by
  cases info with
  | none =>
    intro h
    simp [convertInfo, keysOf] at h
  | some i =>
    rw [convertInfo_some]
    split <;>
      · intro h
        simp [keysOf] at h
        tauto

theorem infoDocumentation_eq_nil_iff (info : List (String × String)) :
    infoDocumentation info = [] ↔
      ¬ (strTruthy (lookupKey info "description") = true ∨
         strTruthy (lookupKey info "termsOfServiceUrl") = true ∨
         strTruthy (lookupKey info "contact") = true ∨
         strTruthy (lookupKey info "license") = true ∨
         strTruthy (lookupKey info "licenseUrl") = true) := by
  simp only [infoDocumentation, DOCUMENTATION_NAME_MAP, List.map_eq_nil_iff,
    List.filter_eq_nil_iff]
  constructor
  · intro h
    push_neg
    refine ⟨?_, ?_, ?_, ?_, ?_⟩ <;>
      · intro hc
        first
        | exact absurd hc (by simpa using h ("description", "Description") (by simp))
        | exact absurd hc
            (by simpa using h ("termsOfServiceUrl", "Terms of Service URL") (by simp))
        | exact absurd hc (by simpa using h ("contact", "Contact") (by simp))
        | exact absurd hc (by simpa using h ("license", "License") (by simp))
        | exact absurd hc (by simpa using h ("licenseUrl", "License URL") (by simp))
  · intro h kv hkv
    push_neg at h
    obtain ⟨h1, h2, h3, h4, h5⟩ := h
    simp only [List.mem_cons, List.mem_singleton] at hkv
    rcases hkv with rfl | rfl | rfl | rfl | rfl | hkv
    · simpa using h1
    · simpa using h2
    · simpa using h3
    · simpa using h4
    · simpa using h5
    · simp at hkv

/-! ### OAuth2 step lemmas -/

theorem implicitStep_fst_lookup (implicit : Option GrantTypeConfig)
    (st : List (String × Js) × List String) (m : String)
    (h : m ≠ "authorizationUri") :
    lookupKey (implicitStep implicit st).1 m = lookupKey st.1 m := by
  cases implicit with
  | none => rfl
  | some imp =>
    simp only [implicitStep]
    cases imp.loginEndpoint with
    | none => rfl
    | some le =>
      by_cases hu : strTruthy le.url = true
      · simp only [hu, if_pos]
        exact lookupKey_setKey_ne _ _ _ _ h
      · simp only [hu, if_neg, Bool.false_eq_true, not_false_iff]

theorem authCodeStep_none : ∀ st, authCodeStep none st = Except.ok st :=
  fun _ => rfl

theorem authCodeStep_some_ok (ac : GrantTypeConfig) (tre te : Endpoint)
    (st : List (String × Js) × List String)
    (h1 : ac.tokenRequestEndpoint = some tre) (h2 : ac.tokenEndpoint = some te) :
    ∃ d, authCodeStep (some ac) st =
      Except.ok (setKey (setKey st.1 "accessTokenUri" (jsOfOpt te.url))
        "authorizationUri" (jsOfOpt tre.url), d) := by
  simp only [authCodeStep, h1, h2]
  exact ⟨_, rfl⟩

theorem authCodeStep_fst_lookup (authCode : Option GrantTypeConfig)
    (st st2 : List (String × Js) × List String) (m : String)
    (h : authCodeStep authCode st = Except.ok st2)
    (h1 : m ≠ "authorizationUri") (h2 : m ≠ "accessTokenUri") :
    lookupKey st2.1 m = lookupKey st.1 m := by
  cases authCode with
  | none =>
    rw [authCodeStep_none] at h
    cases h
    rfl
  | some ac =>
    cases htre : ac.tokenRequestEndpoint with
    | none => simp [authCodeStep, htre] at h
    | some tre =>
      cases hte : ac.tokenEndpoint with
      | none => simp [authCodeStep, htre, hte] at h
      | some te =>
        obtain ⟨d, hd⟩ := authCodeStep_some_ok ac tre te st htre hte
        rw [hd] at h
        cases h
        simp only
        rw [lookupKey_setKey_ne _ _ _ _ h1, lookupKey_setKey_ne _ _ _ _ h2]

/-- Unfolding `convertOAuth2` once the result of the
authorization-code step is known. -/
theorem convertOAuth2_eq (a : SourceAuthorization)
    (g : List (String × GrantTypeConfig))
    (st2 : List (String × Js) × List String)
    (hg : a.grantTypes = some g)
    (h2 : authCodeStep (lookupKey g "authorization_code")
      (implicitStep (lookupKey g "implicit")
        (("authorizationGrants",
            Js.arr (g.map (fun kv => jsOfOpt (lookupKey GRANT_TYPE_MAP kv.1)))) ::
          (scopesStep a.scopes).1,
         (scopesStep a.scopes).2)) = Except.ok st2) :
    convertOAuth2 a = Except.ok (Js.obj
      (if st2.2.isEmpty then
        [("type", Js.str "OAuth 2.0"), ("settings", Js.obj st2.1)]
       else
        [("type", Js.str "OAuth 2.0"), ("settings", Js.obj st2.1)] ++
          [("description", Js.str (joinSep "\n\n" st2.2))])) := by
  simp only [convertOAuth2, hg, h2]

/-- Inversion of a successful `convertOAuth2`: the result object is
the two- or three-field raml authorization built from the final
settings and description of the step pipeline. -/
theorem convertOAuth2_ok_inv (a : SourceAuthorization)
    (g : List (String × GrantTypeConfig)) (j : Js)
    (hg : a.grantTypes = some g)
    (h : convertOAuth2 a = Except.ok j) :
    ∃ st2, authCodeStep (lookupKey g "authorization_code")
      (implicitStep (lookupKey g "implicit")
        (("authorizationGrants",
            Js.arr (g.map (fun kv => jsOfOpt (lookupKey GRANT_TYPE_MAP kv.1)))) ::
          (scopesStep a.scopes).1,
         (scopesStep a.scopes).2)) = Except.ok st2 ∧
      j = Js.obj
        (if st2.2.isEmpty then
          [("type", Js.str "OAuth 2.0"), ("settings", Js.obj st2.1)]
         else
          [("type", Js.str "OAuth 2.0"), ("settings", Js.obj st2.1)] ++
            [("description", Js.str (joinSep "\n\n" st2.2))]) := by
  simp only [convertOAuth2, hg] at h
  split at h
  · cases h
  · next st2 heq =>
    cases h
    exact ⟨st2, heq, rfl⟩

/-! ### Authorization-set lemmas -/

theorem convertSchemes_ok_spec (auths : List (String × SourceAuthorization))
    (schemes : List Js) (h : convertSchemes auths = Except.ok schemes) :
    schemes.length = auths.length ∧
      ∀ i : Nat, ∀ kv, auths[i]? = some kv →
        ∃ j, convertAuthorization kv.2 = Except.ok j ∧
          schemes[i]? = some (Js.obj [(kv.1, j)]) := by
  induction auths generalizing schemes with
  | nil =>
    cases h
    exact ⟨rfl, by intro i kv hkv; simp at hkv⟩
  | cons hd tl ih =>
    obtain ⟨key, a⟩ := hd
    simp only [convertSchemes] at h
    cases ha : convertAuthorization a with
    | error e => rw [ha] at h; cases h
    | ok scheme =>
      rw [ha] at h
      cases hs : convertSchemes tl with
      | error e => rw [hs] at h; cases h
      | ok rest =>
        rw [hs] at h
        cases h
        obtain ⟨hlen, helem⟩ := ih rest hs
        refine ⟨by simp [hlen], ?_⟩
        intro i kv hkv
        cases i with
        | zero =>
          simp only [List.getElem?_cons_zero, Option.some.injEq] at hkv
          subst hkv
          exact ⟨scheme, ha, by simp⟩
        | succ n =>
          simp only [List.getElem?_cons_succ] at hkv ⊢
          exact helem n kv hkv

theorem convertAuthorization_ok (a : SourceAuthorization) (h : authOK a = true) :
    ∃ j, convertAuthorization a = Except.ok j := by
  by_cases hty : a.type = some "oauth2"
  · rw [authOK, if_pos hty] at h
    cases hg : a.grantTypes with
    | none => rw [hg] at h; cases h
    | some g =>
      simp only [hg] at h
      have hstep : ∃ st2, authCodeStep (lookupKey g "authorization_code")
          (implicitStep (lookupKey g "implicit")
            (("authorizationGrants",
                Js.arr (g.map (fun kv => jsOfOpt (lookupKey GRANT_TYPE_MAP kv.1)))) ::
              (scopesStep a.scopes).1,
             (scopesStep a.scopes).2)) = Except.ok st2 := by
        cases hac : lookupKey g "authorization_code" with
        | none => exact ⟨_, authCodeStep_none _⟩
        | some ac =>
          simp only [hac, Bool.and_eq_true] at h
          obtain ⟨tre, htre⟩ := Option.isSome_iff_exists.mp h.1
          obtain ⟨te, hte⟩ := Option.isSome_iff_exists.mp h.2
          obtain ⟨d, hd⟩ := authCodeStep_some_ok ac tre te _ htre hte
          exact ⟨_, hd⟩
      obtain ⟨st2, hst2⟩ := hstep
      rw [convertAuthorization, if_pos hty]
      exact ⟨_, convertOAuth2_eq a g st2 hg hst2⟩
  · rw [convertAuthorization, if_neg hty]
    by_cases h2 : a.type = some "apiKey"
    · rw [if_pos h2]
      exact ⟨_, rfl⟩
    · rw [if_neg h2]
      by_cases h3 : a.type = some "basicAuth"
      · rw [if_pos h3]
        exact ⟨_, rfl⟩
      · rw [if_neg h3]
        exact ⟨_, rfl⟩

theorem convertSchemes_ok_of (auths : List (String × SourceAuthorization))
    (h : ∀ kv ∈ auths, authOK kv.2 = true) :
    ∃ schemes, convertSchemes auths = Except.ok schemes := by
  induction auths with
  | nil => exact ⟨[], rfl⟩
  | cons hd tl ih =>
    obtain ⟨key, a⟩ := hd
    obtain ⟨j, hj⟩ := convertAuthorization_ok a (h (key, a) (List.mem_cons_self _ _))
    obtain ⟨rest, hrest⟩ := ih (fun kv hkv => h kv (List.mem_cons_of_mem _ hkv))
    refine ⟨Js.obj [(key, j)] :: rest, ?_⟩
    simp only [convertSchemes, hj, hrest]

/-! ### Claim C1 (corrected) -/

/-- C1, counterexample: the claim asserts that `convert` terminates
normally on every document, including an oauth2 authorization whose
`grantTypes` field is absent; but on exactly that input the source
reads `authorization.grantTypes.implicit`, a property of `undefined`,
and throws. -/
theorem C1_counterexample :
    converter ⟨none, none,
      some [("oauth", ⟨some "oauth2", none, none, none, none⟩)], none⟩ =
      Except.error () := rfl

/-- C1, amended: `convert` never signals an error on any input in
which every authorization of type oauth2 carries a `grantTypes`
object whose `authorization_code` entry, when present, carries
`tokenRequestEndpoint` and `tokenEndpoint`; absent optional sections
contribute nothing and no other validation is performed.  (The
original claim, which also allowed an oauth2 entry with absent
`grantTypes`, fails: see the counterexample.) -/
theorem C1_theorem (resource : SourceDocument)
    (h : ∀ kv ∈ resource.authorizations.getD [], authOK kv.2 = true) :
    ∃ j, converter resource = Except.ok j := by
  obtain ⟨f3, hf3⟩ : ∃ f3, convertAuthorizations resource.authorizations
      (convertApis resource.apis (convertInfo resource.info [])) = Except.ok f3 := by
    cases hauth : resource.authorizations with
    | none => exact ⟨_, rfl⟩
    | some auths =>
      rw [hauth] at h
      obtain ⟨schemes, hs⟩ := convertSchemes_ok_of auths (by simpa using h)
      refine ⟨setKey (convertApis resource.apis (convertInfo resource.info []))
        "securitySchemes" (Js.arr schemes), ?_⟩
      simp only [convertAuthorizations, hs]
  refine ⟨Js.obj (versionStep resource.apiVersion f3), ?_⟩
  simp only [converter, hf3]

/-- C1, witness: a document exercising every section, including an
oauth2 authorization with both grant types, converts without error. -/
theorem C1_witness :
    ∃ j, converter ⟨some [("title", "Example")], some [⟨some "/a", none⟩],
      some [("basic", ⟨some "basicAuth", none, none, none, none⟩),
            ("oauth", ⟨some "oauth2", none,
              some [("implicit", ⟨some ⟨some "https://i", none, none, none⟩,
                      none, none, none⟩),
                    ("authorization_code", ⟨none, none,
                      some ⟨some "https://t", none, none, none⟩,
                      some ⟨some "https://a", none, none, none⟩⟩)],
              none, none⟩)],
      some "1.0"⟩ = Except.ok j :=
  C1_theorem _ (by decide)

/-! ### Claim C3 (corrected) -/

/-- C3, counterexample: the claim asserts that converting the empty
document yields an object whose only key is `title` (with value
`undefined`); in fact `convertInfo` returns early when `info` is
absent, so the result of `convert` on the empty document has no keys
at all. -/
theorem C3_counterexample :
    converter ⟨none, none, none, none⟩ = Except.ok (Js.obj []) ∧
    keysOf ([] : List (String × Js)) = [] ∧
    "title" ∉ keysOf ([] : List (String × Js)) :=
  ⟨rfl, rfl, by simp [keysOf]⟩

/-- C3, amended: applying `convert` to the empty document yields the
empty object, with no keys at all (in particular no `title` key). -/
theorem C3_theorem : converter ⟨none, none, none, none⟩ = Except.ok (Js.obj []) := rfl

/-! ### Claim C4 (confirmed) -/

/-- C4: an authorization entry whose type is none of oauth2, apiKey,
basicAuth converts, without error, to the `undefined` scheme; in every
successful conversion of the authorization map the entry appears,
wrapped as a single-entry object under its original name, at its
original position, and the output sequence has exactly one element per
input entry. -/
theorem C4_theorem (auths : List (String × SourceAuthorization))
    (ramlObject : List (String × Js)) (i : Nat) (name : String)
    (a : SourceAuthorization)
    (hget : auths[i]? = some (name, a))
    (h1 : a.type ≠ some "oauth2") (h2 : a.type ≠ some "apiKey")
    (h3 : a.type ≠ some "basicAuth") :
    convertAuthorization a = Except.ok Js.undef ∧
    ∀ out, convertAuthorizations (some auths) ramlObject = Except.ok out →
      ∃ schemes, lookupKey out "securitySchemes" = some (Js.arr schemes) ∧
        schemes.length = auths.length ∧
        schemes[i]? = some (Js.obj [(name, Js.undef)]) := by
  have hconv : convertAuthorization a = Except.ok Js.undef := by
    rw [convertAuthorization, if_neg h1, if_neg h2, if_neg h3]
  refine ⟨hconv, ?_⟩
  intro out hout
  simp only [convertAuthorizations] at hout
  cases hs : convertSchemes auths with
  | error e => rw [hs] at hout; cases hout
  | ok schemes =>
    rw [hs] at hout
    cases hout
    obtain ⟨hlen, helem⟩ := convertSchemes_ok_spec auths schemes hs
    obtain ⟨j, hj, hij⟩ := helem i (name, a) hget
    rw [hconv] at hj
    injection hj with hj
    subst hj
    exact ⟨schemes, lookupKey_setKey_self _ _ _, hlen, hij⟩

/-- C4, witness: a map whose second entry has the unrecognized type
`custom` converts to a sequence keeping that entry, as the undefined
scheme, at position 1. -/
theorem C4_witness :
    convertAuthorization ⟨some "custom", none, none, none, none⟩ =
      Except.ok Js.undef ∧
    ∀ out, convertAuthorizations
        (some [("basic", ⟨some "basicAuth", none, none, none, none⟩),
               ("weird", ⟨some "custom", none, none, none, none⟩)]) [] =
        Except.ok out →
      ∃ schemes, lookupKey out "securitySchemes" = some (Js.arr schemes) ∧
        schemes.length = 2 ∧
        schemes[1]? = some (Js.obj [("weird", Js.undef)]) :=
  C4_theorem _ [] 1 "weird" _ rfl (by decide) (by decide) (by decide)

/-! ### Claim C2 (corrected) -/

/-- C2, counterexample: the claim asserts that an apis entry without a
description yields a resource entry with no description field, and
that a present info object without a title yields no title field; in
fact the source always assigns both keys, so they are present with the
value `undefined`. -/
theorem C2_counterexample :
    converter ⟨some [], some [⟨some "/a", none⟩], none, none⟩ =
      Except.ok (Js.obj [("title", Js.undef),
        ("resources", Js.arr
          [Js.obj [("relativeUri", Js.str "/a"), ("description", Js.undef)]])]) ∧
    "description" ∈ keysOf [("relativeUri", Js.str "/a"), ("description", Js.undef)] ∧
    "title" ∈ keysOf [("title", Js.undef),
      ("resources", Js.arr
        [Js.obj [("relativeUri", Js.str "/a"), ("description", Js.undef)]])] :=
  ⟨rfl, by simp [keysOf], by simp [keysOf]⟩

theorem mem_keys_convertInfo_documentation (info : Option (List (String × String))) :
    ("documentation" ∈ keysOf (convertInfo info [])) ↔
      (∃ i, info = some i ∧
        (strTruthy (lookupKey i "description") = true ∨
         strTruthy (lookupKey i "termsOfServiceUrl") = true ∨
         strTruthy (lookupKey i "contact") = true ∨
         strTruthy (lookupKey i "license") = true ∨
         strTruthy (lookupKey i "licenseUrl") = true)) := by
  cases info with
  | none => simp [convertInfo, keysOf]
  | some i =>
    rw [convertInfo_some]
    have hiff := infoDocumentation_eq_nil_iff i
    split
    · next hemp =>
      rw [List.isEmpty_iff] at hemp
      rw [hiff] at hemp
      simp [keysOf, hemp]
    · next hemp =>
      rw [List.isEmpty_iff] at hemp
      rw [hiff] at hemp
      rw [not_not] at hemp
      simp [keysOf, hemp]

theorem mem_keys_convertInfo_title (info : Option (List (String × String))) :
    ("title" ∈ keysOf (convertInfo info [])) ↔ info.isSome = true := by
  cases info with
  | none => simp [convertInfo, keysOf]
  | some i =>
    rw [convertInfo_some]
    split <;> simp [keysOf]

/-- C2, amended: every top-level key of the output is present iff its
source section drives it — `title` iff `info` is present,
`documentation` iff one of the five recognized info fields is truthy
(never as an empty list), `resources` iff `apis` is present,
`securitySchemes` iff `authorizations` is present, `version` iff
`apiVersion` is truthy, and no other top-level key ever appears — but
within derived values the source assigns several keys unconditionally
and may store `undefined` there: a present `info` always yields a
`title` key (value `undefined` when `info.title` is absent), every
`resources` entry always carries `relativeUri` and `description` keys
(value `undefined` when absent on the source entry), the
authorization-code branch always assigns `settings.accessTokenUri` and
`settings.authorizationUri` (value `undefined` when the endpoint urls
are absent), and an authorization of unrecognized type yields its
named entry with the `undefined` scheme value. -/
theorem C2_theorem (resource : SourceDocument) (fields : List (String × Js))
    (h : converter resource = Except.ok (Js.obj fields)) :
    (("title" ∈ keysOf fields) ↔ resource.info.isSome = true) ∧
    (("documentation" ∈ keysOf fields) ↔
      (∃ info, resource.info = some info ∧
        (strTruthy (lookupKey info "description") = true ∨
         strTruthy (lookupKey info "termsOfServiceUrl") = true ∨
         strTruthy (lookupKey info "contact") = true ∨
         strTruthy (lookupKey info "license") = true ∨
         strTruthy (lookupKey info "licenseUrl") = true))) ∧
    (("resources" ∈ keysOf fields) ↔ resource.apis.isSome = true) ∧
    (("securitySchemes" ∈ keysOf fields) ↔
      resource.authorizations.isSome = true) ∧
    (("version" ∈ keysOf fields) ↔ (∃ v, resource.apiVersion = some v ∧ v ≠ "")) ∧
    (∀ m ∈ keysOf fields, m = "title" ∨ m = "documentation" ∨ m = "resources" ∨
      m = "securitySchemes" ∨ m = "version") ∧
    (∀ apis, resource.apis = some apis →
      lookupKey fields "resources" = some (Js.arr (apis.map (fun api =>
        Js.obj [("relativeUri", jsOfOpt api.path),
                ("description", jsOfOpt api.description)])))) ∧
    (∀ (a : SourceAuthorization) (g : List (String × GrantTypeConfig))
        (ac : GrantTypeConfig) (tre te : Endpoint)
        (oauthFields : List (String × Js)),
      a.grantTypes = some g →
      lookupKey g "authorization_code" = some ac →
      ac.tokenRequestEndpoint = some tre →
      ac.tokenEndpoint = some te →
      convertOAuth2 a = Except.ok (Js.obj oauthFields) →
      ∃ settings, lookupKey oauthFields "settings" = some (Js.obj settings) ∧
        lookupKey settings "accessTokenUri" = some (jsOfOpt te.url) ∧
        lookupKey settings "authorizationUri" = some (jsOfOpt tre.url)) ∧
    (∀ a : SourceAuthorization, a.type ≠ some "oauth2" →
      a.type ≠ some "apiKey" → a.type ≠ some "basicAuth" →
      convertAuthorization a = Except.ok Js.undef) := by
  simp only [converter] at h
  split at h
  · cases h
  · next f3 heq =>
    injection h with h
    injection h with h
    subst h
    have hver3 : ¬ ("version" ∈ keysOf f3) := by
      rw [mem_keys_convertAuthorizations _ _ _ _ heq (by decide),
        mem_keys_convertApis _ _ _ (by decide),
        mem_keys_convertInfo _ _ _ (by decide) (by decide)]
      simp [keysOf]
    refine ⟨?_, ?_, ?_, ?_, ?_, ?_, ?_, ?_, ?_⟩
    · rw [mem_keys_versionStep _ _ _ (by decide),
        mem_keys_convertAuthorizations _ _ _ _ heq (by decide),
        mem_keys_convertApis _ _ _ (by decide)]
      exact mem_keys_convertInfo_title _
    · rw [mem_keys_versionStep _ _ _ (by decide),
        mem_keys_convertAuthorizations _ _ _ _ heq (by decide),
        mem_keys_convertApis _ _ _ (by decide)]
      exact mem_keys_convertInfo_documentation _
    · rw [mem_keys_versionStep _ _ _ (by decide),
        mem_keys_convertAuthorizations _ _ _ _ heq (by decide)]
      cases hapis : resource.apis with
      | none =>
        simp only [convertApis]
        refine iff_of_false ?_ (by simp)
        intro hmem
        rcases mem_keys_convertInfo_nil_sub _ _ hmem with h1 | h1 <;>
          exact absurd h1 (by decide)
      | some apis =>
        simp only [convertApis]
        rw [mem_keys_setKey]
        simp
    · rw [mem_keys_versionStep _ _ _ (by decide)]
      cases hauths : resource.authorizations with
      | none =>
        rw [hauths] at heq
        injection heq with heq
        subst heq
        refine iff_of_false ?_ (by simp)
        intro hmem
        rcases mem_keys_convertApis_sub _ _ _ hmem with h1 | h1
        · rcases mem_keys_convertInfo_nil_sub _ _ h1 with h2 | h2 <;>
            exact absurd h2 (by decide)
        · exact absurd h1 (by decide)
      | some auths =>
        rw [hauths] at heq
        obtain ⟨schemes, _, rfl⟩ := convertAuthorizations_some_ok_inv _ _ _ heq
        rw [mem_keys_setKey]
        simp
    · exact mem_keys_versionStep_version _ _ hver3
    · intro m hm
      rcases mem_keys_versionStep_sub _ _ _ hm with h1 | rfl
      · rcases mem_keys_convertAuthorizations_sub _ _ _ _ heq h1 with h2 | rfl
        · rcases mem_keys_convertApis_sub _ _ _ h2 with h3 | rfl
          · rcases mem_keys_convertInfo_nil_sub _ _ h3 with rfl | rfl
            · exact Or.inl rfl
            · exact Or.inr (Or.inl rfl)
          · exact Or.inr (Or.inr (Or.inl rfl))
        · exact Or.inr (Or.inr (Or.inr (Or.inl rfl)))
      · exact Or.inr (Or.inr (Or.inr (Or.inr rfl)))
    · intro apis hapis
      rw [lookupKey_versionStep _ _ _ (by decide),
        lookupKey_convertAuthorizations _ _ _ _ heq (by decide), hapis]
      simp only [convertApis]
      exact lookupKey_setKey_self _ _ _
    · intro a g ac tre te oauthFields hg hac htre hte hoa
      obtain ⟨st2, hstep, hj⟩ := convertOAuth2_ok_inv a g _ hg hoa
      rw [hac] at hstep
      obtain ⟨d, hd⟩ := authCodeStep_some_ok ac tre te _ htre hte
      rw [hd] at hstep
      injection hstep with hstep
      subst hstep
      injection hj with hj
      subst hj
      refine ⟨setKey (setKey (implicitStep (lookupKey g "implicit")
          (("authorizationGrants",
              Js.arr (g.map (fun kv => jsOfOpt (lookupKey GRANT_TYPE_MAP kv.1)))) ::
            (scopesStep a.scopes).1,
           (scopesStep a.scopes).2)).1 "accessTokenUri" (jsOfOpt te.url))
        "authorizationUri" (jsOfOpt tre.url), ?_, ?_, ?_⟩
      · split <;> simp [lookupKey]
      · rw [lookupKey_setKey_ne _ _ _ _ (by decide)]
        exact lookupKey_setKey_self _ _ _
      · exact lookupKey_setKey_self _ _ _
    · intro a h1 h2 h3
      rw [convertAuthorization, if_neg h1, if_neg h2, if_neg h3]

/-- C2, witness: a document with a truthy info description and nothing
else converts to an object whose keys are exactly title (value
undefined) and documentation; the general undefined-valued-key facts
are instantiated alongside. -/
theorem C2_witness :
    (("title" ∈ keysOf [("title", Js.undef),
        ("documentation", Js.arr [Js.obj [("title", Js.str "Description"),
          ("content", Js.str "Docs")]])]) ↔
      (some [("description", "Docs")] :
        Option (List (String × String))).isSome = true) ∧
    (("documentation" ∈ keysOf [("title", Js.undef),
        ("documentation", Js.arr [Js.obj [("title", Js.str "Description"),
          ("content", Js.str "Docs")]])]) ↔
      (∃ info, (some [("description", "Docs")] :
          Option (List (String × String))) = some info ∧
        (strTruthy (lookupKey info "description") = true ∨
         strTruthy (lookupKey info "termsOfServiceUrl") = true ∨
         strTruthy (lookupKey info "contact") = true ∨
         strTruthy (lookupKey info "license") = true ∨
         strTruthy (lookupKey info "licenseUrl") = true))) ∧
    (("resources" ∈ keysOf [("title", Js.undef),
        ("documentation", Js.arr [Js.obj [("title", Js.str "Description"),
          ("content", Js.str "Docs")]])]) ↔
      (none : Option (List SourceApi)).isSome = true) ∧
    (("securitySchemes" ∈ keysOf [("title", Js.undef),
        ("documentation", Js.arr [Js.obj [("title", Js.str "Description"),
          ("content", Js.str "Docs")]])]) ↔
      (none : Option (List (String × SourceAuthorization))).isSome = true) ∧
    (("version" ∈ keysOf [("title", Js.undef),
        ("documentation", Js.arr [Js.obj [("title", Js.str "Description"),
          ("content", Js.str "Docs")]])]) ↔
      (∃ v, (none : Option String) = some v ∧ v ≠ "")) ∧
    (∀ m ∈ keysOf [("title", Js.undef),
        ("documentation", Js.arr [Js.obj [("title", Js.str "Description"),
          ("content", Js.str "Docs")]])],
      m = "title" ∨ m = "documentation" ∨ m = "resources" ∨
      m = "securitySchemes" ∨ m = "version") ∧
    (∀ apis, (none : Option (List SourceApi)) = some apis →
      lookupKey [("title", Js.undef),
        ("documentation", Js.arr [Js.obj [("title", Js.str "Description"),
          ("content", Js.str "Docs")]])] "resources" =
        some (Js.arr (apis.map (fun api =>
          Js.obj [("relativeUri", jsOfOpt api.path),
                  ("description", jsOfOpt api.description)])))) ∧
    (∀ (a : SourceAuthorization) (g : List (String × GrantTypeConfig))
        (ac : GrantTypeConfig) (tre te : Endpoint)
        (oauthFields : List (String × Js)),
      a.grantTypes = some g →
      lookupKey g "authorization_code" = some ac →
      ac.tokenRequestEndpoint = some tre →
      ac.tokenEndpoint = some te →
      convertOAuth2 a = Except.ok (Js.obj oauthFields) →
      ∃ settings, lookupKey oauthFields "settings" = some (Js.obj settings) ∧
        lookupKey settings "accessTokenUri" = some (jsOfOpt te.url) ∧
        lookupKey settings "authorizationUri" = some (jsOfOpt tre.url)) ∧
    (∀ a : SourceAuthorization, a.type ≠ some "oauth2" →
      a.type ≠ some "apiKey" → a.type ≠ some "basicAuth" →
      convertAuthorization a = Except.ok Js.undef) :=
  C2_theorem ⟨some [("description", "Docs")], none, none, none⟩ _ rfl

/-! ### Claim C5 (confirmed) -/

/-- C5: for every OAuth2 authorization, `settings.authorizationGrants`
has exactly one element per key of `grantTypes`, in the iteration
order of `grantTypes`, each being the grant-type translation of that
key; `implicit` translates to `token`, `authorization_code` to `code`,
and every other key to the absent value, still contributing its
element. -/
theorem C5_theorem (a : SourceAuthorization)
    (g : List (String × GrantTypeConfig)) (fields : List (String × Js))
    (hg : a.grantTypes = some g)
    (h : convertOAuth2 a = Except.ok (Js.obj fields)) :
    ∃ settings grants,
      lookupKey fields "settings" = some (Js.obj settings) ∧
      lookupKey settings "authorizationGrants" = some (Js.arr grants) ∧
      grants.length = g.length ∧
      (∀ i : Nat, ∀ kv, g[i]? = some kv →
        grants[i]? = some (jsOfOpt (lookupKey GRANT_TYPE_MAP kv.1))) ∧
      lookupKey GRANT_TYPE_MAP "implicit" = some "token" ∧
      lookupKey GRANT_TYPE_MAP "authorization_code" = some "code" ∧
      (∀ k, k ≠ "implicit" → k ≠ "authorization_code" →
        lookupKey GRANT_TYPE_MAP k = none) := by
  obtain ⟨st2, hstep, hj⟩ := convertOAuth2_ok_inv a g _ hg h
  injection hj with hj
  refine ⟨st2.1, g.map (fun kv => jsOfOpt (lookupKey GRANT_TYPE_MAP kv.1)),
    ?_, ?_, by simp, ?_, by decide, by decide, ?_⟩
  · rw [hj]
    split <;> simp [lookupKey]
  · rw [authCodeStep_fst_lookup _ _ _ _ hstep (by decide) (by decide),
      implicitStep_fst_lookup _ _ _ (by decide)]
    simp [lookupKey]
  · intro i kv hkv
    simp [List.getElem?_map, hkv]
  · intro k h1 h2
    simp [GRANT_TYPE_MAP, lookupKey, Ne.symm h1, Ne.symm h2]

/-- C5, witness: a grant-type map with a single unrecognized key `x`
yields a one-element `authorizationGrants` holding the absent value. -/
theorem C5_witness :
    ∃ settings grants,
      lookupKey [("type", Js.str "OAuth 2.0"),
        ("settings", Js.obj [("authorizationGrants", Js.arr [Js.undef])])]
        "settings" = some (Js.obj settings) ∧
      lookupKey settings "authorizationGrants" = some (Js.arr grants) ∧
      grants.length = ([("x", (⟨none, none, none, none⟩ : GrantTypeConfig))]).length ∧
      (∀ i : Nat, ∀ kv,
        ([("x", (⟨none, none, none, none⟩ : GrantTypeConfig))])[i]? = some kv →
        grants[i]? = some (jsOfOpt (lookupKey GRANT_TYPE_MAP kv.1))) ∧
      lookupKey GRANT_TYPE_MAP "implicit" = some "token" ∧
      lookupKey GRANT_TYPE_MAP "authorization_code" = some "code" ∧
      (∀ k, k ≠ "implicit" → k ≠ "authorization_code" →
        lookupKey GRANT_TYPE_MAP k = none) :=
  C5_theorem ⟨some "oauth2", none, some [("x", ⟨none, none, none, none⟩)],
    none, none⟩ _ _ rfl rfl

/-! ### Claim C6 (confirmed) -/

/-- C6: for the documented scope list, `settings.scopes` is
`["read", "write"]` and the description is the header line
`Available scopes: ` followed (after the blank line separating
description entries) by the single line `* write: Write access`, with
no line for `read`; in general `settings.scopes` is the ordered list
of scope names and only scopes carrying a truthy description
contribute a `* name: description` line, the description key being
absent when no scope carries one. -/
theorem C6_theorem :
    convertOAuth2 ⟨some "oauth2",
        some [⟨"read", none⟩, ⟨"write", some "Write access"⟩],
        some [], none, none⟩ =
      Except.ok (Js.obj [("type", Js.str "OAuth 2.0"),
        ("settings", Js.obj [("authorizationGrants", Js.arr []),
          ("scopes", Js.arr [Js.str "read", Js.str "write"])]),
        ("description", Js.str "Available scopes: \n\n* write: Write access")]) ∧
    ∀ (a : SourceAuthorization) (g : List (String × GrantTypeConfig))
      (scopes : List Scope),
      a.grantTypes = some g →
      lookupKey g "implicit" = none →
      lookupKey g "authorization_code" = none →
      a.scopes = some scopes →
      scopes ≠ [] →
      ∃ fields settings, convertOAuth2 a = Except.ok (Js.obj fields) ∧
        lookupKey fields "settings" = some (Js.obj settings) ∧
        lookupKey settings "scopes" =
          some (Js.arr (scopes.map (fun s => Js.str s.scope))) ∧
        ((scopes.filter (fun s => strTruthy s.description)).map scopeLine = [] →
          lookupKey fields "description" = none) ∧
        (∀ d rest,
          (scopes.filter (fun s => strTruthy s.description)).map scopeLine =
            d :: rest →
          lookupKey fields "description" =
            some (Js.str ("Available scopes: " ++ "\n\n" ++
              joinSep "\n" (d :: rest)))) := by
  refine ⟨rfl, ?_⟩
  intro a g scopes hg himp hac hsc hne
  have hemp : scopes.isEmpty = false := by
    simp [List.isEmpty_iff, hne]
  have hstep := convertOAuth2_eq a g
    (("authorizationGrants",
        Js.arr (g.map (fun kv => jsOfOpt (lookupKey GRANT_TYPE_MAP kv.1)))) ::
      (scopesStep a.scopes).1,
     (scopesStep a.scopes).2) hg
    (by rw [hac, himp]; exact authCodeStep_none _)
  rw [hsc] at hstep
  simp only [scopesStep, hemp, Bool.false_eq_true, if_false] at hstep
  cases hd : (scopes.filter (fun s => strTruthy s.description)).map scopeLine with
  | nil =>
    rw [hd] at hstep
    simp only [List.isEmpty_nil, if_true, List.isEmpty_cons] at hstep
    refine ⟨_, [("authorizationGrants",
        Js.arr (g.map (fun kv => jsOfOpt (lookupKey GRANT_TYPE_MAP kv.1)))),
      ("scopes", Js.arr (scopes.map (fun s => Js.str s.scope)))],
      hstep, by simp [lookupKey], by simp [lookupKey], ?_, ?_⟩
    · intro _
      simp [lookupKey]
    · intro d rest hdr
      cases hdr
  | cons d rest =>
    rw [hd] at hstep
    simp only [List.isEmpty_cons, Bool.false_eq_true, if_false] at hstep
    refine ⟨_, [("authorizationGrants",
        Js.arr (g.map (fun kv => jsOfOpt (lookupKey GRANT_TYPE_MAP kv.1)))),
      ("scopes", Js.arr (scopes.map (fun s => Js.str s.scope)))],
      hstep, by simp [lookupKey], by simp [lookupKey], ?_, ?_⟩
    · intro hcontra
      cases hcontra
    · intro d2 rest2 hdr
      injection hdr with h1 h2
      subst h1
      subst h2
      simp [lookupKey, joinSep]

/-- C6, witness: a scope list where only the second scope has a
description, under an auth with no grant entries. -/
theorem C6_witness :
    ∃ fields settings,
      convertOAuth2 ⟨some "oauth2",
          some [⟨"read", none⟩, ⟨"write", some "Write access"⟩],
          some [], none, none⟩ = Except.ok (Js.obj fields) ∧
      lookupKey fields "settings" = some (Js.obj settings) ∧
      lookupKey settings "scopes" =
        some (Js.arr (([⟨"read", none⟩, ⟨"write", some "Write access"⟩] :
          List Scope).map (fun s => Js.str s.scope))) ∧
      ((([⟨"read", none⟩, ⟨"write", some "Write access"⟩] : List Scope).filter
          (fun s => strTruthy s.description)).map scopeLine = [] →
        lookupKey fields "description" = none) ∧
      (∀ d rest,
        (([⟨"read", none⟩, ⟨"write", some "Write access"⟩] : List Scope).filter
          (fun s => strTruthy s.description)).map scopeLine = d :: rest →
        lookupKey fields "description" =
          some (Js.str ("Available scopes: " ++ "\n\n" ++
            joinSep "\n" (d :: rest)))) :=
  C6_theorem.2 ⟨some "oauth2",
      some [⟨"read", none⟩, ⟨"write", some "Write access"⟩], some [], none, none⟩
    [] [⟨"read", none⟩, ⟨"write", some "Write access"⟩] rfl rfl rfl rfl
    (List.cons_ne_nil _ _)

/-! ### Claim C7 (confirmed) -/

/-- C7: an authorization-code grant whose
`tokenRequestEndpoint.clientIdName` is `app_id`, with every other
override field at its default (absent, empty, or the literal default —
`client_secret` for the client-secret name and `access_code` for the
code-grant token name), no implicit grant and no scopes, produces a
description that is exactly the single line
`The code grant uses "app_id" as the parameter for passing the client id.` -/
theorem C7_theorem (a : SourceAuthorization)
    (g : List (String × GrantTypeConfig)) (ac : GrantTypeConfig)
    (tre te : Endpoint)
    (hsc : a.scopes = none)
    (hg : a.grantTypes = some g)
    (himp : lookupKey g "implicit" = none)
    (hac : lookupKey g "authorization_code" = some ac)
    (htre : ac.tokenRequestEndpoint = some tre)
    (hte : ac.tokenEndpoint = some te)
    (hcid : tre.clientIdName = some "app_id")
    (hcs : tre.clientSecretName = none ∨ tre.clientSecretName = some "" ∨
      tre.clientSecretName = some "client_secret")
    (htn : te.tokenName = none ∨ te.tokenName = some "" ∨
      te.tokenName = some "access_code") :
    ∃ fields, convertOAuth2 a = Except.ok (Js.obj fields) ∧
      lookupKey fields "description" = some (Js.str
        "The code grant uses \"app_id\" as the parameter for passing the client id.") := by
  have hstep2 : authCodeStep (lookupKey g "authorization_code")
      (implicitStep (lookupKey g "implicit")
        (("authorizationGrants",
            Js.arr (g.map (fun kv => jsOfOpt (lookupKey GRANT_TYPE_MAP kv.1)))) ::
          (scopesStep a.scopes).1,
         (scopesStep a.scopes).2)) =
      Except.ok (setKey (setKey
          [("authorizationGrants",
            Js.arr (g.map (fun kv => jsOfOpt (lookupKey GRANT_TYPE_MAP kv.1))))]
          "accessTokenUri" (jsOfOpt te.url)) "authorizationUri" (jsOfOpt tre.url),
        ["The code grant uses \"app_id\" as the parameter for passing the client id."]) := by
    rw [hac, himp, hsc]
    simp only [scopesStep, implicitStep, authCodeStep]
    rcases hcs with h | h | h <;> rcases htn with h2 | h2 | h2 <;>
      simp [htre, hte, hcid, h, h2]
  have hstep := convertOAuth2_eq a g _ hg hstep2
  refine ⟨_, hstep, ?_⟩
  simp [lookupKey, joinSep]

/-- C7, witness: the concrete authorization-code grant with
`clientIdName = app_id` and every other override absent. -/
theorem C7_witness :
    ∃ fields, convertOAuth2 ⟨some "oauth2", none,
        some [("authorization_code", ⟨none, none,
          some ⟨some "https://t", none, none, none⟩,
          some ⟨some "https://a", none, some "app_id", none⟩⟩)],
        none, none⟩ = Except.ok (Js.obj fields) ∧
      lookupKey fields "description" = some (Js.str
        "The code grant uses \"app_id\" as the parameter for passing the client id.") :=
  C7_theorem _ _ ⟨none, none, some ⟨some "https://t", none, none, none⟩,
      some ⟨some "https://a", none, some "app_id", none⟩⟩
    ⟨some "https://a", none, some "app_id", none⟩
    ⟨some "https://t", none, none, none⟩
    rfl rfl rfl rfl rfl rfl rfl (Or.inl rfl) (Or.inl rfl)

/-! ### Claim C8 (confirmed) -/

/-- C8: the API-key authorization passing the key `X-Api-Key` as a
header converts to the fixed `x-api-key` scheme with the key nested
under `describedBy.headers`; and any `passAs` that is neither `header`
nor `query` leaves `describedBy` an empty object with no nested
entry. -/
theorem C8_theorem :
    convertAuthorization ⟨some "apiKey", none, none,
        some "header", some "X-Api-Key"⟩ =
      Except.ok (Js.obj [("type", Js.str "x-api-key"),
        ("describedBy", Js.obj [("headers", Js.obj [("X-Api-Key",
          Js.obj [("type", Js.str "string"),
            ("description",
              Js.str "Used to send a valid API key for authentication.")])])])]) ∧
    ∀ a : SourceAuthorization,
      (∀ p, a.passAs = some p → p ≠ "header" ∧ p ≠ "query") →
      convertApiKey a =
        Js.obj [("type", Js.str "x-api-key"), ("describedBy", Js.obj [])] := by
  refine ⟨rfl, ?_⟩
  intro a hp
  cases hpa : a.passAs with
  | none => simp [convertApiKey, hpa]
  | some p =>
    obtain ⟨h1, h2⟩ := hp p hpa
    simp [convertApiKey, hpa, API_KEY_PASS_AS_MAP, lookupKey,
      Ne.symm h1, Ne.symm h2]

/-- C8, witness: an API-key authorization whose `passAs` is `cookie`
keeps an empty `describedBy`. -/
theorem C8_witness :
    convertApiKey ⟨some "apiKey", none, none, some "cookie", some "k"⟩ =
      Js.obj [("type", Js.str "x-api-key"), ("describedBy", Js.obj [])] :=
  C8_theorem.2 _ (fun p hp => by
    injection hp with hp
    subst hp
    exact ⟨by decide, by decide⟩)

/-! ### Claim C9 (confirmed) -/

/-- C9: `documentation` is present in the output iff at least one of
the five recognized info fields is truthy; when present its entries
follow the fixed declaration order of the recognized-key table (not
the input key order), each a title/content pair using the fixed
display names; and the computed documentation depends only on the
lookup function of the info object, so any two info objects with the
same lookups — in particular any reordering — yield the same
documentation. -/
theorem C9_theorem (resource : SourceDocument)
    (info : List (String × String)) (fields : List (String × Js))
    (hinfo : resource.info = some info)
    (h : converter resource = Except.ok (Js.obj fields)) :
    (("documentation" ∈ keysOf fields) ↔
      (strTruthy (lookupKey info "description") = true ∨
       strTruthy (lookupKey info "termsOfServiceUrl") = true ∨
       strTruthy (lookupKey info "contact") = true ∨
       strTruthy (lookupKey info "license") = true ∨
       strTruthy (lookupKey info "licenseUrl") = true)) ∧
    ((strTruthy (lookupKey info "description") = true ∨
      strTruthy (lookupKey info "termsOfServiceUrl") = true ∨
      strTruthy (lookupKey info "contact") = true ∨
      strTruthy (lookupKey info "license") = true ∨
      strTruthy (lookupKey info "licenseUrl") = true) →
      lookupKey fields "documentation" = some (Js.arr
        (([("description", "Description"),
           ("termsOfServiceUrl", "Terms of Service URL"),
           ("contact", "Contact"),
           ("license", "License"),
           ("licenseUrl", "License URL")].filter
          (fun kv => strTruthy (lookupKey info kv.1))).map
          (fun kv => Js.obj [("title", Js.str kv.2),
                             ("content", jsOfOpt (lookupKey info kv.1))])))) ∧
    (∀ info2 : List (String × String),
      (∀ k, lookupKey info2 k = lookupKey info k) →
      infoDocumentation info2 = infoDocumentation info) := by
  simp only [converter] at h
  split at h
  · cases h
  · next f3 heq =>
    injection h with h
    injection h with h
    subst h
    have hdoc : ("documentation" ∈ keysOf (versionStep resource.apiVersion f3)) ↔
        ("documentation" ∈ keysOf (convertInfo resource.info [])) := by
      rw [mem_keys_versionStep _ _ _ (by decide),
        mem_keys_convertAuthorizations _ _ _ _ heq (by decide),
        mem_keys_convertApis _ _ _ (by decide)]
    have hlk : lookupKey (versionStep resource.apiVersion f3) "documentation" =
        lookupKey (convertInfo resource.info []) "documentation" := by
      rw [lookupKey_versionStep _ _ _ (by decide),
        lookupKey_convertAuthorizations _ _ _ _ heq (by decide),
        lookupKey_convertApis _ _ _ (by decide)]
    refine ⟨?_, ?_, ?_⟩
    · rw [hdoc, hinfo, mem_keys_convertInfo_documentation]
      simp
    · intro hD
      have hne : infoDocumentation info ≠ [] := by
        intro hnil
        exact (infoDocumentation_eq_nil_iff info).mp hnil hD
      rw [hlk, hinfo, convertInfo_some,
        if_neg (by rw [List.isEmpty_iff]; exact hne)]
      simp [lookupKey, infoDocumentation, DOCUMENTATION_NAME_MAP]
    · intro info2 hk
      simp only [infoDocumentation, DOCUMENTATION_NAME_MAP, hk]

/-- C9, witness: an info object holding only a license converts to a
single-entry documentation list with the fixed display name. -/
theorem C9_witness :
    (("documentation" ∈ keysOf [("title", Js.undef),
        ("documentation", Js.arr [Js.obj [("title", Js.str "License"),
          ("content", Js.str "MIT")]])]) ↔
      (strTruthy (lookupKey [("license", "MIT")] "description") = true ∨
       strTruthy (lookupKey [("license", "MIT")] "termsOfServiceUrl") = true ∨
       strTruthy (lookupKey [("license", "MIT")] "contact") = true ∨
       strTruthy (lookupKey [("license", "MIT")] "license") = true ∨
       strTruthy (lookupKey [("license", "MIT")] "licenseUrl") = true)) ∧
    ((strTruthy (lookupKey [("license", "MIT")] "description") = true ∨
      strTruthy (lookupKey [("license", "MIT")] "termsOfServiceUrl") = true ∨
      strTruthy (lookupKey [("license", "MIT")] "contact") = true ∨
      strTruthy (lookupKey [("license", "MIT")] "license") = true ∨
      strTruthy (lookupKey [("license", "MIT")] "licenseUrl") = true) →
      lookupKey [("title", Js.undef),
        ("documentation", Js.arr [Js.obj [("title", Js.str "License"),
          ("content", Js.str "MIT")]])] "documentation" = some (Js.arr
        (([("description", "Description"),
           ("termsOfServiceUrl", "Terms of Service URL"),
           ("contact", "Contact"),
           ("license", "License"),
           ("licenseUrl", "License URL")].filter
          (fun kv => strTruthy (lookupKey [("license", "MIT")] kv.1))).map
          (fun kv => Js.obj [("title", Js.str kv.2),
            ("content", jsOfOpt (lookupKey [("license", "MIT")] kv.1))])))) ∧
    (∀ info2 : List (String × String),
      (∀ k, lookupKey info2 k = lookupKey [("license", "MIT")] k) →
      infoDocumentation info2 = infoDocumentation [("license", "MIT")]) :=
  C9_theorem ⟨some [("license", "MIT")], none, none, none⟩ _ _ rfl rfl

/-! ### Claim C10 (confirmed) -/

/-- C10: when `grantTypes` carries both an implicit grant with a
present, truthy `loginEndpoint.url` and an authorization-code grant,
the final `settings.authorizationUri` is the authorization-code
grant value `tokenRequestEndpoint.url`: the authorization-code branch
runs after the implicit branch and overwrites the key it set. -/
theorem C10_theorem (a : SourceAuthorization)
    (g : List (String × GrantTypeConfig)) (imp ac : GrantTypeConfig)
    (le tre te : Endpoint)
    (hg : a.grantTypes = some g)
    (himp : lookupKey g "implicit" = some imp)
    (hle : imp.loginEndpoint = some le)
    (hurl : strTruthy le.url = true)
    (hac : lookupKey g "authorization_code" = some ac)
    (htre : ac.tokenRequestEndpoint = some tre)
    (hte : ac.tokenEndpoint = some te) :
    ∃ fields settings, convertOAuth2 a = Except.ok (Js.obj fields) ∧
      lookupKey fields "settings" = some (Js.obj settings) ∧
      lookupKey settings "authorizationUri" = some (jsOfOpt tre.url) := by
  obtain ⟨d, hd⟩ := authCodeStep_some_ok ac tre te
    (implicitStep (lookupKey g "implicit")
      (("authorizationGrants",
          Js.arr (g.map (fun kv => jsOfOpt (lookupKey GRANT_TYPE_MAP kv.1)))) ::
        (scopesStep a.scopes).1,
       (scopesStep a.scopes).2)) htre hte
  have hstep := convertOAuth2_eq a g _ hg (by rw [hac]; exact hd)
  refine ⟨_, setKey (setKey (implicitStep (lookupKey g "implicit")
      (("authorizationGrants",
          Js.arr (g.map (fun kv => jsOfOpt (lookupKey GRANT_TYPE_MAP kv.1)))) ::
        (scopesStep a.scopes).1,
       (scopesStep a.scopes).2)).1 "accessTokenUri" (jsOfOpt te.url))
    "authorizationUri" (jsOfOpt tre.url), hstep, ?_, ?_⟩
  · split <;> simp [lookupKey]
  · exact lookupKey_setKey_self _ _ _

/-- C10, witness: both grants present; the final authorizationUri is
the authorization-code request-endpoint url, not the implicit login
url. -/
theorem C10_witness :
    ∃ fields settings, convertOAuth2 ⟨some "oauth2", none,
        some [("implicit", ⟨some ⟨some "https://i", none, none, none⟩,
                none, none, none⟩),
              ("authorization_code", ⟨none, none,
                some ⟨some "https://t", none, none, none⟩,
                some ⟨some "https://a", none, none, none⟩⟩)],
        none, none⟩ = Except.ok (Js.obj fields) ∧
      lookupKey fields "settings" = some (Js.obj settings) ∧
      lookupKey settings "authorizationUri" = some (jsOfOpt (some "https://a")) :=
  C10_theorem _ _ ⟨some ⟨some "https://i", none, none, none⟩, none, none, none⟩
    ⟨none, none, some ⟨some "https://t", none, none, none⟩,
      some ⟨some "https://a", none, none, none⟩⟩
    ⟨some "https://i", none, none, none⟩
    ⟨some "https://a", none, none, none⟩
    ⟨some "https://t", none, none, none⟩
    rfl rfl rfl (by decide) rfl rfl rfl

end SwaggerToRaml
